import Mathlib

/- Shallow embedding of the latency-statistics core of stun-timing (src/main.go).
   Go float64 arithmetic is modelled by exact rational arithmetic (ℚ); every
   concrete computation exercised by the claims is exact in float64 as well
   (widths and quotients built from the percentages 25/50/75 and from the
   divisor 20 at the claims' inputs).  Functions that can panic at runtime
   return Option, with none marking the panic. -/

/-- Go struct `result` in src/main.go: elapsed microseconds and an optional
    error.  A probe is successful exactly when `err = none`. -/
structure GoResult where
  time : Int
  err : Option Unit
deriving DecidableEq

/-- Output events: one constructor per fmt print statement that the callback,
    the statistics reporter and the histogram renderer can emit. -/
inductive Line where
  | yourIP (a : String)
  | firstRequestTime (t : Int)
  | noSuccessfulRequests
  | resultsHeader
  | successfulRequests (n : Nat)
  | failedRequests (n : Nat)
  | tableTop
  | tableHeader
  | tableSep
  | pRow (p : Nat) (v : Int)
  | tableBottom
  | histHeader
  | histRow (lo hi : Int) (barLen : Nat) (count : Nat)
deriving DecidableEq

/-- The `successfulTimes` accumulation loop shared by printResults and
    printASCIIHistogram: elapsed times of the outcomes with no error, in
    input order. -/
def successfulTimes (results : List GoResult) : List Int :=
  results.filterMap (fun r => if r.err = none then some r.time else none)

/-- The `errorCount` accumulation in printResults. -/
def errorCount (results : List GoResult) : Nat :=
  (results.filter (fun r => decide (¬ r.err = none))).length

/-- Go math.Round: round to the nearest integer, halves away from zero. -/
def goRound (x : ℚ) : Int :=
  if 0 ≤ x then ⌊x + 1 / 2⌋ else ⌈x - 1 / 2⌉

/-- Go conversion int(x) of a finite float value: truncation toward zero. -/
def goTruncToInt (x : ℚ) : Int :=
  if 0 ≤ x then ⌊x⌋ else ⌈x⌉

/-- Index computed by `percentile` in src/main.go:
    int(math.Round(float64(len(sorted)-1) * float64(p) / 100)). -/
def percentileIdx (n : Nat) (p : Nat) : Int :=
  goRound ((((n : Int) - 1 : Int) : ℚ) * (p : ℚ) / 100)

/-- Go `percentile(sorted, p)`: the element at percentileIdx; none models the
    index-out-of-range panic of `sorted[index]`. -/
def percentile (sorted : List Int) (p : Nat) : Option Int :=
  let index := percentileIdx sorted.length p
  if 0 ≤ index then sorted[index.toNat]? else none

/-- printResults in src/main.go, as the list of lines it prints.  sort.Slice
    mutates only the freshly built successfulTimes list; on integers any
    correct sort produces the same list, embedded here as insertionSort. -/
def printResults (results : List GoResult) : List Line :=
  let st := successfulTimes results
  let firstLine : List Line :=
    match results with
    | [] => []
    | r :: _ => if r.err = none then [Line.firstRequestTime r.time] else []
  if st.length = 0 then
    firstLine ++ [Line.noSuccessfulRequests]
  else
    let sorted := List.insertionSort (· ≤ ·) st
    firstLine ++
      [Line.resultsHeader,
       Line.successfulRequests st.length,
       Line.failedRequests (errorCount results),
       Line.tableTop, Line.tableHeader, Line.tableSep,
       Line.pRow 0 (sorted.headD 0),
       Line.pRow 25 ((percentile sorted 25).getD 0),
       Line.pRow 50 ((percentile sorted 50).getD 0),
       Line.pRow 75 ((percentile sorted 75).getD 0),
       Line.pRow 100 (sorted.getLastD 0),
       Line.tableBottom]

/-- Loop computing minTime in printASCIIHistogram. -/
def loopMin (xs : List Int) (init : Int) : Int :=
  xs.foldl (fun m t => if t < m then t else m) init

/-- Loop computing maxTime in printASCIIHistogram. -/
def loopMax (xs : List Int) (init : Int) : Int :=
  xs.foldl (fun m t => if t > m then t else m) init

/-- Bucket index int(float64(t-minTime) / bucketSize) in printASCIIHistogram.
    When bucketSize = 0 every sample equals minTime, the float quotient is
    0/0 = NaN, and Go's conversion of NaN to int is implementation-defined
    (on amd64 it is -2^63), so the subsequent buckets[bucket]++ indexes out
    of range and panics: modelled as none. -/
def bucketIdx (t minT : Int) (size : ℚ) : Option Int :=
  if size = 0 then none
  else some (goTruncToInt (((t - minT : Int) : ℚ) / size))

/-- Bucket index after the clamp `if bucket == numBuckets { bucket-- }`. -/
def clampedBucket (t minT : Int) (size : ℚ) (numBuckets : Nat) : Option Int :=
  (bucketIdx t minT size).map (fun b => if b = (numBuckets : Int) then b - 1 else b)

/-- One iteration of the bucket-filling loop: buckets[bucket]++, with none
    modelling the index-out-of-range panic. -/
def bucketStep (numBuckets : Nat) (minT : Int) (size : ℚ)
    (acc : Option (List Nat)) (t : Int) : Option (List Nat) :=
  acc.bind (fun buckets =>
    match clampedBucket t minT size numBuckets with
    | none => none
    | some b =>
        if 0 ≤ b ∧ b.toNat < buckets.length then
          some (buckets.set b.toNat (buckets.getD b.toNat 0 + 1))
        else none)

/-- The bucket-filling loop of printASCIIHistogram, started from
    `buckets := make([]int, numBuckets)`. -/
def fillBuckets (times : List Int) (minT : Int) (size : ℚ) (numBuckets : Nat) :
    Option (List Nat) :=
  times.foldl (bucketStep numBuckets minT size) (some (List.replicate numBuckets 0))

/-- Bucketing stage of printASCIIHistogram: min, max,
    bucketSize = (max - min) / 20, then the filling loop. -/
def histogramBuckets (st : List Int) : Option (List Nat) :=
  let minT := loopMin st (st.headD 0)
  let maxT := loopMax st (st.headD 0)
  fillBuckets st minT (((maxT - minT : Int) : ℚ) / 20) 20

/-- printASCIIHistogram in src/main.go as the list of lines it prints; none
    models a panic inside the bucket-filling loop. -/
def printASCIIHistogram (results : List GoResult) : Option (List Line) :=
  let st := successfulTimes results
  if st.length = 0 then some []
  else
    let minT := loopMin st (st.headD 0)
    let maxT := loopMax st (st.headD 0)
    let bucketSize : ℚ := ((maxT - minT : Int) : ℚ) / 20
    (histogramBuckets st).map (fun buckets =>
      let maxCount := buckets.foldl (fun m c => if c > m then c else m) 0
      Line.histHeader ::
        (List.range 20).map (fun (i : Nat) =>
          Line.histRow (goTruncToInt ((i : ℚ) * bucketSize) + minT)
                       (goTruncToInt (((i : ℚ) + 1) * bucketSize) + minT)
                       (buckets.getD i 0 * 40 / maxCount)
                       (buckets.getD i 0)))

/-- Abstract outcome of one probe against the transport collaborator: the
    elapsed time, the error returned by c.Do (none = success), and the
    XOR-mapped address carried by a successful response. -/
structure ProbeOutcome where
  time : Int
  err : Option Unit
  addr : String
deriving DecidableEq

/-- The loop body of runSTUNRequests stores results[i] = result{time, err}. -/
def probeResult (p : ProbeOutcome) : GoResult :=
  { time := p.time, err := p.err }

/-- runSTUNRequests after a successful dial, over an abstract probe
    collaborator indexed by iteration.  The second component is the
    Line.yourIP output produced by the callback, which prints only when
    i == 0 and the probe succeeded.  A negative runCount makes
    make([]result, cfg.runCount) panic before any probe is issued: none. -/
def runSTUNRequests (probe : Nat → ProbeOutcome) (runCount : Int) :
    Option (List GoResult × List Line) :=
  if runCount < 0 then none
  else some
    ((List.range runCount.toNat).map (fun i => probeResult (probe i)),
     (List.range runCount.toNat).foldl (fun out i =>
        if (probe i).err = none then
          if i = 0 then out ++ [Line.yourIP (probe i).addr] else out
        else out) [])

/-- Program state threaded through the two reporters: the results slice and
    the lines printed so far. -/
structure ProgState where
  results : List GoResult
  output : List Line
deriving DecidableEq

/-- printResults as a state transformer on ProgState. -/
def printResultsS (s : ProgState) : ProgState :=
  { s with output := s.output ++ printResults s.results }

/-- printASCIIHistogram as a state transformer; none models its panic. -/
def printASCIIHistogramS (s : ProgState) : Option ProgState :=
  (printASCIIHistogram s.results).map (fun ls => { s with output := s.output ++ ls })

/-- C1: the spec requires that when all successful times are equal the
    histogram renderer must not fail and must place every sample in bucket 0.
    The code instead computes bucketSize = 0, the per-sample float quotient
    0/0 = NaN, and an implementation-defined int(NaN) that indexes the bucket
    slice out of range on amd64: evaluating the embedding at all-equal samples
    (elapsed 42 μs) yields the panic marker none, not a bucket-0 histogram. -/
theorem c1_all_equal_times_panic :
    printASCIIHistogram [⟨42, none⟩, ⟨42, none⟩] = none
      ∧ histogramBuckets [42, 42] = none := by
  have hb : histogramBuckets [42, 42] = none := by
    norm_num [histogramBuckets, fillBuckets, bucketStep, clampedBucket, bucketIdx,
      loopMin, loopMax]
  have hst : successfulTimes [(⟨42, none⟩ : GoResult), ⟨42, none⟩] = [42, 42] := by
    decide
  refine ⟨?_, hb⟩
  simp [printASCIIHistogram, hst, hb]

/-- C5: for every Outcome Sequence, the statistics reporter's success count
    plus its failure count equals the sequence length. -/
theorem c5_success_plus_failure_eq_total (results : List GoResult) :
    (successfulTimes results).length + errorCount results = results.length := by
  induction results with
  | nil => rfl
  | cons r rs ih =>
      by_cases h : r.err = none <;>
        simp [successfulTimes, errorCount, h] at ih ⊢ <;> omega

/-- C6: an Outcome Sequence with zero successful outcomes makes the
    statistics reporter emit exactly the "No successful requests" line with
    no percentile table, and the histogram renderer emit nothing. -/
theorem c6_zero_successes_reports (results : List GoResult)
    (h : successfulTimes results = []) :
    printResults results = [Line.noSuccessfulRequests]
      ∧ printASCIIHistogram results = some [] := by
  refine ⟨?_, by simp [printASCIIHistogram, h]⟩
  cases results with
  | nil => simp [printResults, successfulTimes]
  | cons r rs =>
      by_cases hr : r.err = none
      · simp [successfulTimes, hr] at h
      · simp [printResults, h, hr]

/-- Witness for c6_zero_successes_reports at a single failed probe. -/
theorem c6_zero_successes_reports_witness :
    successfulTimes [{ time := 5, err := some () }] = []
      ∧ (printResults [{ time := 5, err := some () }] = [Line.noSuccessfulRequests]
         ∧ printASCIIHistogram [{ time := 5, err := some () }] = some []) :=
  ⟨by decide, c6_zero_successes_reports [{ time := 5, err := some () }] (by decide)⟩

/-- C7: the Runner invoked with run count 0 produces the empty Outcome
    Sequence without consulting the probe collaborator (the result is the
    same for every probe function), and both reporters then behave exactly
    as in the zero-successes case. -/
theorem c7_zero_runs (probe : Nat → ProbeOutcome) :
    runSTUNRequests probe 0 = some ([], [])
      ∧ printResults [] = [Line.noSuccessfulRequests]
      ∧ printASCIIHistogram [] = some [] := by
  refine ⟨?_, rfl, rfl⟩
  simp [runSTUNRequests]

/-- C9: a negative run count makes make([]result, runCount) panic before any
    probe is issued (none for every probe collaborator). -/
theorem c9_negative_run_count_panics (probe : Nat → ProbeOutcome)
    (runCount : Int) (h : runCount < 0) :
    runSTUNRequests probe runCount = none := by
  simp [runSTUNRequests, h]

/-- Witness for c9_negative_run_count_panics at runCount = -1. -/
theorem c9_negative_run_count_panics_witness :
    ((-1 : Int) < 0)
      ∧ runSTUNRequests (fun _ => ⟨0, none, ""⟩) (-1) = none :=
  ⟨by decide, c9_negative_run_count_panics (fun _ => ⟨0, none, ""⟩) (-1) (by decide)⟩

/-- C10: running the statistics reporter and then the histogram renderer
    leaves the results sequence of the program state unchanged; the only list
    that is sorted is the freshly built successfulTimes list. -/
theorem c10_reporters_preserve_results (s : ProgState) :
    (printResultsS s).results = s.results
      ∧ (printASCIIHistogramS (printResultsS s)).elim True
          (fun s2 => s2.results = s.results) := by
  refine ⟨rfl, ?_⟩
  cases hh : printASCIIHistogram s.results with
  | none => simp [printASCIIHistogramS, printResultsS, hh]
  | some ls => simp [printASCIIHistogramS, printResultsS, hh]

/-- C2: for a non-empty list and p ≤ 100 (covering p = 25, 50, 75), the
    percentile function returns the element at the zero-based index
    round((n-1) * p / 100) with rounding half away from zero, the index is
    in range, and the spec's test vectors hold. -/
theorem c2_percentile_index_rule (sorted : List Int) (p : Nat)
    (hne : sorted ≠ []) (hp : p ≤ 100) :
    (percentile sorted p = sorted[(percentileIdx sorted.length p).toNat]?
        ∧ (percentileIdx sorted.length p).toNat < sorted.length)
      ∧ percentile [10, 20, 30, 40, 50] 25 = some 20
      ∧ percentile [10, 20, 30, 40, 50] 50 = some 30
      ∧ percentile [10, 20, 30, 40, 50] 75 = some 40
      ∧ percentile [100, 200] 25 = some 100
      ∧ percentile [100, 200] 75 = some 200 := by
  have hn : 1 ≤ sorted.length := List.length_pos.mpr hne
  have hn1 : (1 : Int) ≤ (sorted.length : Int) := by exact_mod_cast hn
  have hq0 : (0 : ℚ) ≤ (((sorted.length : Int) - 1 : Int) : ℚ) * (p : ℚ) / 100 := by
    apply div_nonneg _ (by norm_num)
    apply mul_nonneg _ (by positivity)
    have : ((1 : Int) : ℚ) ≤ (((sorted.length : Int) : Int) : ℚ) := by exact_mod_cast hn1
    push_cast at this ⊢
    linarith
  have hidx : percentileIdx sorted.length p =
      ⌊(((sorted.length : Int) - 1 : Int) : ℚ) * (p : ℚ) / 100 + 1 / 2⌋ := by
    rw [percentileIdx, goRound, if_pos hq0]
  have hidx0 : 0 ≤ percentileIdx sorted.length p := by
    rw [hidx]
    apply Int.le_floor.mpr
    push_cast at hq0 ⊢
    linarith
  have hqle : (((sorted.length : Int) - 1 : Int) : ℚ) * (p : ℚ) / 100
      ≤ ((sorted.length : ℚ) - 1) := by
    rw [mul_div_assoc]
    have h1 : (p : ℚ) / 100 ≤ 1 := by
      rw [div_le_one (by norm_num)]
      exact_mod_cast hp
    have h2 : (0 : ℚ) ≤ (sorted.length : ℚ) - 1 := by
      have : ((1 : Int) : ℚ) ≤ ((sorted.length : Int) : ℚ) := by exact_mod_cast hn1
      push_cast at this ⊢
      linarith
    calc (((sorted.length : Int) - 1 : Int) : ℚ) * ((p : ℚ) / 100)
        = ((sorted.length : ℚ) - 1) * ((p : ℚ) / 100) := by push_cast; ring
      _ ≤ ((sorted.length : ℚ) - 1) * 1 := by
          exact mul_le_mul_of_nonneg_left h1 h2
      _ = (sorted.length : ℚ) - 1 := by ring
  have hidxle : percentileIdx sorted.length p ≤ (sorted.length : Int) - 1 := by
    rw [hidx]
    have hle : (((sorted.length : Int) - 1 : Int) : ℚ) * (p : ℚ) / 100 + 1 / 2
        ≤ 1 / 2 + (((sorted.length : Int) - 1 : Int) : ℚ) := by
      push_cast at hqle ⊢
      linarith
    calc ⌊(((sorted.length : Int) - 1 : Int) : ℚ) * (p : ℚ) / 100 + 1 / 2⌋
        ≤ ⌊1 / 2 + ((((sorted.length : Int) - 1 : Int)) : ℚ)⌋ := Int.floor_le_floor hle
      _ = ⌊(1 / 2 : ℚ)⌋ + ((sorted.length : Int) - 1) := Int.floor_add_int _ _
      _ = (sorted.length : Int) - 1 := by norm_num
  refine ⟨⟨?_, ?_⟩, ?_, ?_, ?_, ?_, ?_⟩
  · rw [percentile]
    exact if_pos hidx0
  · omega
  · norm_num [percentile, percentileIdx, goRound]
    try decide
  · norm_num [percentile, percentileIdx, goRound]
    try decide
  · norm_num [percentile, percentileIdx, goRound]
    try decide
  · norm_num [percentile, percentileIdx, goRound]
    try decide
  · norm_num [percentile, percentileIdx, goRound]
    try decide

/-- Witness for c2_percentile_index_rule at the spec's first test vector. -/
theorem c2_percentile_index_rule_witness :
    (([10, 20, 30, 40, 50] : List Int) ≠ []) ∧ 25 ≤ 100
      ∧ percentile [10, 20, 30, 40, 50] 25 = some 20 :=
  ⟨by decide, by decide,
    (c2_percentile_index_rule [10, 20, 30, 40, 50] 25 (by decide) (by decide)).2.1⟩

/-- C3: when max > min, a sample between min and max is assigned the bucket
    index floor((sample - min) / width) with width = (max - min) / 20, an
    index computing to exactly 20 is clamped to 19, and for the samples
    [0, 0, 0, 100] the sample 100 lands in bucket 19 while bucket 0 counts 3. -/
theorem c3_bucket_index_and_clamp (t minT maxT : Int)
    (hlt : minT < maxT) (h1 : minT ≤ t) (h2 : t ≤ maxT) :
    (clampedBucket t minT (((maxT - minT : Int) : ℚ) / 20) 20 =
        some (if ⌊((t - minT : Int) : ℚ) / (((maxT - minT : Int) : ℚ) / 20)⌋ = 20
              then 19
              else ⌊((t - minT : Int) : ℚ) / (((maxT - minT : Int) : ℚ) / 20)⌋))
      ∧ histogramBuckets [0, 0, 0, 100] =
          some [3, 0, 0, 0, 0, 0, 0, 0, 0, 0, 0, 0, 0, 0, 0, 0, 0, 0, 0, 1] := by
  constructor
  · have hsize : (0 : ℚ) < ((maxT - minT : Int) : ℚ) / 20 := by
      apply div_pos _ (by norm_num)
      have h : (0 : Int) < maxT - minT := by omega
      exact_mod_cast h
    have hq0 : (0 : ℚ) ≤ ((t - minT : Int) : ℚ) / (((maxT - minT : Int) : ℚ) / 20) := by
      apply div_nonneg _ hsize.le
      have h : (0 : Int) ≤ t - minT := by omega
      exact_mod_cast h
    rw [clampedBucket, bucketIdx, if_neg (ne_of_gt hsize)]
    rw [goTruncToInt, if_pos hq0]
    simp only [Option.map_some']
    congr 1
    split
    · next heq => rw [if_pos (by exact_mod_cast heq)]; omega
    · next hne => rw [if_neg (by exact_mod_cast hne)]
  · norm_num [histogramBuckets, fillBuckets, bucketStep, clampedBucket, bucketIdx,
      goTruncToInt, loopMin, loopMax]
    decide

/-- Witness for c3_bucket_index_and_clamp at the boundary sample t = max. -/
theorem c3_bucket_index_and_clamp_witness :
    ((0 : Int) < 100) ∧ ((0 : Int) ≤ 100) ∧ ((100 : Int) ≤ 100)
      ∧ clampedBucket 100 0 (((100 - 0 : Int) : ℚ) / 20) 20 =
          some (if ⌊((100 - 0 : Int) : ℚ) / (((100 - 0 : Int) : ℚ) / 20)⌋ = 20
                then 19
                else ⌊((100 - 0 : Int) : ℚ) / (((100 - 0 : Int) : ℚ) / 20)⌋) :=
  ⟨by decide, by decide, by decide,
    (c3_bucket_index_and_clamp 100 0 100 (by decide) (by decide) (by decide)).1⟩

/-- Probe collaborator whose probe at index 0 fails and whose later probes
    succeed, so the run's first success is not the probe at index 0. -/
def cexProbe : Nat → ProbeOutcome := fun i =>
  if i = 0 then { time := 5, err := some (), addr := "" }
  else { time := 7, err := none, addr := "203.0.113.7" }

/-- C4 counterexample: a run of two probes in which the first success is the
    probe at index 1 produces no yourIP line at all (second component []),
    refuting the claim that the observed address is surfaced on the first
    successful call of the run; the countP conjunct records that the run
    does have a successful outcome. -/
theorem c4_counterexample_no_ip_line :
    runSTUNRequests cexProbe 2 =
        some ([{ time := 5, err := some () }, { time := 7, err := none }], [])
      ∧ List.countP (fun r => decide (r.err = none))
          [({ time := 5, err := some () } : GoResult), { time := 7, err := none }] = 1 := by
  constructor
  · decide
  · decide

/-- The callback output fold ignores every iteration whose index is not 0. -/
theorem displayFold_untouched (probe : Nat → ProbeOutcome) :
    ∀ (l : List Nat) (out : List Line), (∀ i ∈ l, i ≠ 0) →
      List.foldl (fun out i =>
          if (probe i).err = none then
            if i = 0 then out ++ [Line.yourIP (probe i).addr] else out
          else out) out l = out := by
  intro l
  induction l with
  | nil => intro out _; rfl
  | cons j l ih =>
      intro out h
      have hj : j ≠ 0 := h j (List.mem_cons_self j l)
      have hstep : (if (probe j).err = none then
          if j = 0 then out ++ [Line.yourIP (probe j).addr] else out
          else out) = out := by
        by_cases hje : (probe j).err = none <;> simp [hje, hj]
      rw [List.foldl_cons, hstep]
      exact ih out (fun i hi => h i (List.mem_cons_of_mem j hi))

/-- C4 amended: the observed address is surfaced exactly when the probe at
    index 0 succeeds; a run whose first success comes later prints no
    address line. -/
theorem c4_amended_ip_only_for_probe_zero (probe : Nat → ProbeOutcome)
    (runCount : Int) (h : 0 ≤ runCount) :
    (runSTUNRequests probe runCount).map Prod.snd =
      some (if 0 < runCount ∧ (probe 0).err = none
            then [Line.yourIP (probe 0).addr] else []) := by
  rw [runSTUNRequests, if_neg (by omega)]
  simp only [Option.map_some']
  congr 1
  rcases hn : runCount.toNat with _ | m
  · have h0 : ¬ (0 < runCount ∧ (probe 0).err = none) := by
      rintro ⟨hpos, _⟩
      omega
    rw [if_neg h0]
    rfl
  · have hpos : 0 < runCount := by omega
    rw [List.range_succ_eq_map, List.foldl_cons]
    have hne0 : ∀ i ∈ List.map Nat.succ (List.range m), i ≠ 0 := by
      intro i hi
      rcases List.mem_map.mp hi with ⟨j, _, rfl⟩
      exact Nat.succ_ne_zero j
    by_cases h0 : (probe 0).err = none
    · conv_rhs => rw [if_pos ⟨hpos, h0⟩]
      rw [displayFold_untouched probe _ _ hne0]
      simp [h0]
    · conv_rhs => rw [if_neg (fun hc => h0 hc.2)]
      rw [displayFold_untouched probe _ _ hne0]
      simp [h0]

/-- Witness for c4_amended_ip_only_for_probe_zero at cexProbe with two runs. -/
theorem c4_amended_ip_only_for_probe_zero_witness :
    ((0 : Int) ≤ 2)
      ∧ (runSTUNRequests cexProbe 2).map Prod.snd =
          some (if (0 : Int) < 2 ∧ (cexProbe 0).err = none
                then [Line.yourIP (cexProbe 0).addr] else []) :=
  ⟨by decide, c4_amended_ip_only_for_probe_zero cexProbe 2 (by decide)⟩

/-- The min loop never exceeds its initial accumulator. -/
theorem loopMin_le_init (xs : List Int) : ∀ init : Int, loopMin xs init ≤ init := by
  induction xs with
  | nil =>
      intro init
      simp [loopMin]
  | cons x xs ih =>
      intro init
      have h1 : loopMin (x :: xs) init = loopMin xs (if x < init then x else init) := by
        simp [loopMin]
      rw [h1]
      calc loopMin xs (if x < init then x else init)
          ≤ (if x < init then x else init) := ih _
        _ ≤ init := by split <;> omega

/-- The min loop is a lower bound for every member of the list. -/
theorem loopMin_le_mem (xs : List Int) :
    ∀ init t : Int, t ∈ xs → loopMin xs init ≤ t := by
  induction xs with
  | nil =>
      intro init t ht
      simp at ht
  | cons x xs ih =>
      intro init t ht
      have h1 : loopMin (x :: xs) init = loopMin xs (if x < init then x else init) := by
        simp [loopMin]
      rw [h1]
      rcases List.mem_cons.mp ht with rfl | ht
      · calc loopMin xs (if t < init then t else init)
            ≤ (if t < init then t else init) := loopMin_le_init xs _
          _ ≤ t := by split <;> omega
      · exact ih _ t ht

/-- The max loop never falls below its initial accumulator. -/
theorem loopMax_init_le (xs : List Int) : ∀ init : Int, init ≤ loopMax xs init := by
  induction xs with
  | nil =>
      intro init
      simp [loopMax]
  | cons x xs ih =>
      intro init
      have h1 : loopMax (x :: xs) init = loopMax xs (if x > init then x else init) := by
        simp [loopMax]
      rw [h1]
      calc init ≤ (if x > init then x else init) := by split <;> omega
        _ ≤ loopMax xs (if x > init then x else init) := ih _

/-- The max loop is an upper bound for every member of the list. -/
theorem loopMax_mem_le (xs : List Int) :
    ∀ init t : Int, t ∈ xs → t ≤ loopMax xs init := by
  induction xs with
  | nil =>
      intro init t ht
      simp at ht
  | cons x xs ih =>
      intro init t ht
      have h1 : loopMax (x :: xs) init = loopMax xs (if x > init then x else init) := by
        simp [loopMax]
      rw [h1]
      rcases List.mem_cons.mp ht with rfl | ht
      · calc t ≤ (if t > init then t else init) := by split <;> omega
          _ ≤ loopMax xs (if t > init then t else init) := loopMax_init_le xs _
      · exact ih _ t ht

/-- Incrementing one in-range cell raises the sum of a list of counts by one. -/
theorem sum_set_getD_add_one (l : List Nat) :
    ∀ i : Nat, i < l.length → (l.set i (l.getD i 0 + 1)).sum = l.sum + 1 := by
  induction l with
  | nil =>
      intro i hi
      simp at hi
  | cons a l ih =>
      intro i hi
      cases i with
      | zero =>
          simp [List.getD]
          omega
      | succ j =>
          have hj : j < l.length := by
            simp at hi
            omega
          simp [List.getD] at ih ⊢
          rw [ih j hj]
          omega

/-- Invariant of the bucket-filling loop: with a positive width and every
    sample between min and min + 20 * width, the loop never panics, keeps 20
    buckets, and adds exactly one count per sample. -/
theorem fillBuckets_invariant (minT : Int) (size : ℚ) (hsize : 0 < size) :
    ∀ times : List Int,
      (∀ t ∈ times, minT ≤ t ∧ ((t - minT : Int) : ℚ) ≤ 20 * size) →
      ∀ buckets : List Nat, buckets.length = 20 →
        ∃ b, List.foldl (bucketStep 20 minT size) (some buckets) times = some b
          ∧ b.length = 20 ∧ b.sum = buckets.sum + times.length := by
  intro times
  induction times with
  | nil =>
      intro _ buckets hlen
      exact ⟨buckets, rfl, hlen, by simp⟩
  | cons t ts ih =>
      intro hbound buckets hlen
      obtain ⟨h1, h2⟩ := hbound t (List.mem_cons_self t ts)
      have hq0 : (0 : ℚ) ≤ ((t - minT : Int) : ℚ) / size := by
        apply div_nonneg _ hsize.le
        have h : (0 : Int) ≤ t - minT := by omega
        exact_mod_cast h
      have hq20 : ((t - minT : Int) : ℚ) / size ≤ 20 := by
        rw [div_le_iff hsize]
        linarith
      have hfl0 : (0 : Int) ≤ ⌊((t - minT : Int) : ℚ) / size⌋ := Int.floor_nonneg.mpr hq0
      have hfl20 : ⌊((t - minT : Int) : ℚ) / size⌋ ≤ 20 := by
        calc ⌊((t - minT : Int) : ℚ) / size⌋ ≤ ⌊(20 : ℚ)⌋ := Int.floor_le_floor hq20
          _ = 20 := by norm_num
      have hb0 : 0 ≤ (if ⌊((t - minT : Int) : ℚ) / size⌋ = ((20 : Nat) : Int)
          then ⌊((t - minT : Int) : ℚ) / size⌋ - 1 else ⌊((t - minT : Int) : ℚ) / size⌋) := by
        split
        · omega
        · exact hfl0
      have hb19 : (if ⌊((t - minT : Int) : ℚ) / size⌋ = ((20 : Nat) : Int)
          then ⌊((t - minT : Int) : ℚ) / size⌋ - 1 else ⌊((t - minT : Int) : ℚ) / size⌋) < 20 := by
        split
        · omega
        · next hne =>
            have : ⌊((t - minT : Int) : ℚ) / size⌋ ≠ 20 := by exact_mod_cast hne
            omega
      set b : Int := if ⌊((t - minT : Int) : ℚ) / size⌋ = ((20 : Nat) : Int)
          then ⌊((t - minT : Int) : ℚ) / size⌋ - 1 else ⌊((t - minT : Int) : ℚ) / size⌋ with hbdef
      have hcond : 0 ≤ b ∧ b.toNat < buckets.length := by
        constructor
        · exact hb0
        · rw [hlen]
          omega
      have hstep : bucketStep 20 minT size (some buckets) t
          = some (buckets.set b.toNat (buckets.getD b.toNat 0 + 1)) := by
        rw [bucketStep, Option.some_bind, clampedBucket, bucketIdx, if_neg (ne_of_gt hsize),
          goTruncToInt, if_pos hq0]
        simp only [Option.map_some']
        rw [← hbdef]
        simp only [if_pos hcond]
      have hbound2 : ∀ t2 ∈ ts, minT ≤ t2 ∧ ((t2 - minT : Int) : ℚ) ≤ 20 * size :=
        fun t2 ht2 => hbound t2 (List.mem_cons_of_mem t ht2)
      have hlen2 : (buckets.set b.toNat (buckets.getD b.toNat 0 + 1)).length = 20 := by
        rw [List.length_set]
        exact hlen
      obtain ⟨bf, hfold, hl, hs⟩ := ih hbound2 _ hlen2
      refine ⟨bf, ?_, hl, ?_⟩
      · rw [List.foldl_cons, hstep]
        exact hfold
      · rw [hs, sum_set_getD_add_one buckets b.toNat (by rw [hlen]; omega)]
        simp only [List.length_cons]
        omega

/-- C8: when max > min among the successful elapsed-times, the histogram
    bucketing assigns every successful sample to exactly one of the 20
    buckets, so the bucket counts sum to the number of successful samples. -/
theorem c8_bucket_counts_sum (results : List GoResult)
    (hlt : loopMin (successfulTimes results) ((successfulTimes results).headD 0)
         < loopMax (successfulTimes results) ((successfulTimes results).headD 0)) :
    ∃ b, histogramBuckets (successfulTimes results) = some b
      ∧ b.length = 20 ∧ b.sum = (successfulTimes results).length := by
  set st := successfulTimes results with hstdef
  set minT := loopMin st (st.headD 0) with hmindef
  set maxT := loopMax st (st.headD 0) with hmaxdef
  have hsize : (0 : ℚ) < ((maxT - minT : Int) : ℚ) / 20 := by
    apply div_pos _ (by norm_num)
    have h : (0 : Int) < maxT - minT := by omega
    exact_mod_cast h
  have hbound : ∀ t ∈ st, minT ≤ t
      ∧ ((t - minT : Int) : ℚ) ≤ 20 * (((maxT - minT : Int) : ℚ) / 20) := by
    intro t ht
    refine ⟨loopMin_le_mem st _ t ht, ?_⟩
    have hle : t ≤ maxT := loopMax_mem_le st _ t ht
    have h20 : 20 * (((maxT - minT : Int) : ℚ) / 20) = ((maxT - minT : Int) : ℚ) := by
      ring
    rw [h20]
    have h : t - minT ≤ maxT - minT := by omega
    exact_mod_cast h
  obtain ⟨b, hb, hl, hs⟩ := fillBuckets_invariant minT (((maxT - minT : Int) : ℚ) / 20)
    hsize st hbound (List.replicate 20 0) (by simp)
  have hunfold : histogramBuckets st
      = List.foldl (bucketStep 20 minT (((maxT - minT : Int) : ℚ) / 20))
          (some (List.replicate 20 0)) st := rfl
  refine ⟨b, ?_, hl, ?_⟩
  · rw [hunfold]
    exact hb
  · rw [hs]
    simp

/-- Witness for c8_bucket_counts_sum at two successful probes 0 μs and 100 μs. -/
theorem c8_bucket_counts_sum_witness :
    (loopMin (successfulTimes [⟨0, none⟩, ⟨100, none⟩])
        ((successfulTimes [⟨0, none⟩, ⟨100, none⟩]).headD 0)
      < loopMax (successfulTimes [⟨0, none⟩, ⟨100, none⟩])
        ((successfulTimes [⟨0, none⟩, ⟨100, none⟩]).headD 0))
      ∧ ∃ b, histogramBuckets (successfulTimes [⟨0, none⟩, ⟨100, none⟩]) = some b
          ∧ b.length = 20 ∧ b.sum = (successfulTimes [⟨0, none⟩, ⟨100, none⟩]).length :=
  ⟨by decide, c8_bucket_counts_sum [⟨0, none⟩, ⟨100, none⟩] (by decide)⟩
